import Mathlib

/-!
# docker-logging-driver: the stream registry, the ingestion worker and the read-back streamer

A shallow embedding of `driver.go`.

* Go maps are total lookup functions into `Option`; `delete` and assignment are pointwise updates.
* Go pointers that may be nil are `Option`s; a field access through a nil pointer is a
  run-time panic, which the embedding makes an explicit outcome.
* The blocking calls of a worker (decoding a frame, the sink's `Log`, the environment lookup,
  the HTTP POST, the watch channels, the pipe write) are replaced by the sequence of their
  results, one record per loop iteration, so that each worker is a function from that
  sequence to the trace of its effects.
* The two locked sections of `StartLogging` are separate functions; the sequential
  `StartLogging` is their composition, and the concurrent model schedules them.
-/

namespace DockerLoggingDriver

/-! ## Go values -/

/-- Go `error` values that the driver creates, compares or passes on. -/
inductive GoError where
  /-- The sentinel `io.EOF`. -/
  | EOF
  /-- Any other error value produced by a collaborator, by its message. -/
  | other (msg : String)
  /-- The value of `fmt.Errorf("logger for %q already exists", file)`. -/
  | alreadyExists (file : String)
  /-- The value of `errors.Wrap(cause, msg)`. -/
  | wrap (cause : GoError) (msg : String)
  /-- The value of `errors.Wrapf(cause, format, arg)`. -/
  | wrapf (cause : GoError) (format : String) (arg : String)
  /-- The value of `fmt.Errorf("logger does not exist for %s", id)`. -/
  | doesNotExist (id : String)
  /-- The value of `fmt.Errorf("logger does not support reading")`. -/
  | noReadSupport
  deriving DecidableEq, Repr

/-- Run-time panics of the Go program. -/
inductive GoPanic where
  /-- The panic "invalid memory address or nil pointer dereference". -/
  | nilDereference
  deriving DecidableEq, Repr

/-- Go's `p.f = v` for a pointer `p` to a struct: the field is updated in the pointed-to
struct, and the statement panics when `p` is nil. -/
def assignThrough {α : Type} (p : Option α) (set : α → α) : Except GoPanic (Option α) :=
  match p with
  | none => Except.error GoPanic.nilDereference
  | some x => Except.ok (some (set x))

/-- Go's `p.f` read through a pointer `p`: panics when `p` is nil. -/
def readThrough {α β : Type} (p : Option α) (get : α → β) : Except GoPanic β :=
  match p with
  | none => Except.error GoPanic.nilDereference
  | some x => Except.ok (get x)

/-- Conversion of an integer to Go's `int64` (two's complement wrap-around). -/
def wrapInt64 (x : Int) : Int :=
  (x + 9223372036854775808) % 18446744073709551616 - 9223372036854775808

/-- An instant of Go's `time.Time`, as seconds since the Unix epoch and nanoseconds within
the second. -/
structure Time where
  sec : Int
  nsec : Int
  deriving DecidableEq, Repr

/-- The zero value of `time.Time`: January 1, year 1, 00:00:00 UTC. -/
def Time.zero : Time := ⟨-62135596800, 0⟩

/-- Go's `time.Unix(sec, nsec)`: the nanoseconds are normalised into `[0, 1e9)` with
truncating division, the carry going to the seconds. -/
def timeUnix (sec nsec : Int) : Time :=
  if nsec < 0 ∨ nsec ≥ 1000000000 then
    let n := Int.tdiv nsec 1000000000
    let sec1 := wrapInt64 (sec + n)
    let nsec1 := nsec - n * 1000000000
    if nsec1 < 0 then ⟨wrapInt64 (sec1 - 1), nsec1 + 1000000000⟩ else ⟨sec1, nsec1⟩
  else ⟨sec, nsec⟩

/-- Go's `Time.UnixNano()`: `sec*1e9 + nsec` in `int64` arithmetic. -/
def Time.UnixNano (t : Time) : Int :=
  wrapInt64 (wrapInt64 (t.sec * 1000000000) + t.nsec)

/-! ## Wire frames and canonical messages -/

/-- The type `logdriver.PartialLogEntryMetadata` of the wire protocol. -/
structure PartialLogEntryMetadata where
  Last : Bool
  Id : String
  Ordinal : Int
  deriving DecidableEq, Repr

/-- The wire frame `logdriver.LogEntry`; `PartialLogMetadata` is a pointer, nil when the
frame carries no metadata. -/
structure LogEntry where
  Source : String
  TimeNano : Int
  Line : List Nat
  Partial : Bool
  PartialLogMetadata : Option PartialLogEntryMetadata
  deriving DecidableEq, Repr

/-- The zero `LogEntry`: the value of `var buf logdriver.LogEntry` and of `buf` after
`buf.Reset()`. -/
def LogEntry.zero : LogEntry := ⟨"", 0, [], false, none⟩

/-- The type `backend.PartialLogMetaData` of the sink's message. -/
structure PartialLogMetaData where
  Last : Bool
  ID : String
  Ordinal : Int
  deriving DecidableEq, Repr

/-- The canonical message `dockerLogger.Message`, restricted to the fields the driver reads
or writes. `PLogMetaData` is a pointer (`ReadLogs` compares it with nil), nil in the zero
value. -/
structure Message where
  Line : List Nat
  Source : String
  Timestamp : Time
  PLogMetaData : Option PartialLogMetaData
  deriving DecidableEq, Repr

/-- The zero `Message`: the value of `var msg dockerLogger.Message`. -/
def Message.zero : Message := ⟨[], "", Time.zero, none⟩

/-- The mapping of a decoded frame to a canonical message in `consumeLog`
(`var msg dockerLogger.Message` up to `msg.Timestamp = time.Unix(0, buf.TimeNano)`).
The three metadata assignments go through the pointer `msg.PLogMetaData`. -/
def mapEntry (buf : LogEntry) : Except GoPanic Message := do
  let msg := Message.zero
  let msg := { msg with Line := buf.Line }
  let msg := { msg with Source := buf.Source }
  let msg ← (match buf.PartialLogMetadata with
    | some pm => do
      let p ← assignThrough msg.PLogMetaData (fun x => { x with ID := pm.Id })
      let msg := { msg with PLogMetaData := p }
      let p ← assignThrough msg.PLogMetaData (fun x => { x with Last := pm.Last })
      let msg := { msg with PLogMetaData := p }
      let p ← assignThrough msg.PLogMetaData (fun x => { x with Ordinal := pm.Ordinal })
      pure { msg with PLogMetaData := p }
    | none => pure msg)
  pure { msg with Timestamp := timeUnix 0 buf.TimeNano }

/-- The mapping of a canonical message back to a frame in the read-back task of `ReadLogs`
(`buf.Line = msg.Line` up to `buf.Source = msg.Source`), applied to the frame `buf`. -/
def unmapMessage (buf : LogEntry) (msg : Message) : LogEntry :=
  let buf := { buf with Line := msg.Line }
  let buf := { buf with Partial := msg.PLogMetaData.isSome }
  let buf := { buf with TimeNano := msg.Timestamp.UnixNano }
  { buf with Source := msg.Source }

/-! ## The ingestion worker -/

/-- What one call `dec.ReadMsg(&buf)` does. On success `buf` holds the decoded frame (the
unmarshaller resets `buf` first). On failure the error is returned and `buf` is either left
as it was (`none`: the length header or the payload could not be read, or the length exceeds
the maximum) or holds what the unmarshaller had filled in before it failed (`some b`). -/
inductive ReadMsgResult where
  | ok (entry : LogEntry)
  | failed (err : GoError) (filled : Option LogEntry)
  deriving DecidableEq, Repr

/-- The contents of `buf` and the error after `dec.ReadMsg(&buf)`. -/
def readMsg (buf : LogEntry) : ReadMsgResult → LogEntry × Option GoError
  | ReadMsgResult.ok entry => (entry, none)
  | ReadMsgResult.failed err none => (buf, some err)
  | ReadMsgResult.failed err (some b) => (b, some err)

/-- The two results `(resp, err)` of `http.Post`; `resp` is a pointer, here the handle of
the response when it is not nil. -/
structure PostResult where
  resp : Option Nat
  err : Option GoError
  deriving DecidableEq, Repr

/-- The results of the calls one iteration of the loop of `consumeLog` may make, in the
order of the code: `dec.ReadMsg(&buf)`, `lf.logger.Log(&msg)`, `os.Getenv("WEBHOOK_URL")`
and `http.Post(...)`. A result is used only if the iteration reaches its call. -/
structure Iteration where
  read : ReadMsgResult
  logErr : Option GoError
  webhookEnv : String
  post : PostResult
  deriving DecidableEq, Repr

/-- The effects of the ingestion worker on its collaborators. -/
inductive Effect where
  /-- The call `lf.stream.Close()` on end of stream. -/
  | closeStream
  /-- The decoder is recreated: `dec = protoio.NewUint32DelimitedReader(...)`. -/
  | newReader
  /-- The call `lf.logger.Log(&msg)`. -/
  | log (msg : Message)
  /-- The report "error writing log message" of a failed `Log`. -/
  | reportLogError (err : GoError)
  /-- The call `http.Post(WebhookURL, ...)` whose body is the JSON text of `msg`. -/
  | post (msg : Message)
  /-- The report "Error sending log to slack webhook" of a failed POST. -/
  | reportPostError (err : GoError)
  /-- The call `resp.Body.Close()` on the response with this handle. -/
  | closeBody (resp : Nat)
  /-- The deferred call `dec.Close()`. -/
  | decClose
  deriving DecidableEq, Repr

/-- How a worker's run over a finite sequence of results ends. -/
inductive Outcome where
  /-- The function returned. -/
  | returned
  /-- The goroutine panicked (no `recover` in the program: the process crashes). -/
  | panicked
  /-- The results are used up: the worker is blocked in its next blocking call. -/
  | blocked
  deriving DecidableEq, Repr

/-- Puts effects in front of the trace of the rest of a run. -/
def andThen (es : List Effect) (r : List Effect × Outcome) : List Effect × Outcome :=
  (es ++ r.1, r.2)

/-- The `for` loop of `consumeLog`, started with the contents of `buf`. -/
def consumeLoop (buf : LogEntry) : List Iteration → List Effect × Outcome
  | [] => ([], Outcome.blocked)
  | it :: rest =>
    let (buf, err) := readMsg buf it.read
    if err = some GoError.EOF then
      ([Effect.closeStream], Outcome.returned)
    else
      andThen (if err.isSome then [Effect.newReader] else []) <|
      match mapEntry buf with
      | Except.error _ => ([], Outcome.panicked)
      | Except.ok msg =>
        andThen [Effect.log msg] <|
        match it.logErr with
        | some e =>
          -- continue: buf.Reset() is not reached
          andThen [Effect.reportLogError e] (consumeLoop buf rest)
        | none =>
          if it.webhookEnv ≠ "" then
            andThen [Effect.post msg] <|
            andThen (match it.post.err with
              | some e => [Effect.reportPostError e]
              | none => []) <|
            match readThrough it.post.resp id with
            | Except.error _ => ([], Outcome.panicked)
            | Except.ok r => andThen [Effect.closeBody r] (consumeLoop LogEntry.zero rest)
          else
            consumeLoop LogEntry.zero rest

/-- The worker `consumeLog(lf)` over the results of its iterations: the loop run from the
zero `buf`, then the deferred `dec.Close()` when the function returns or panics. -/
def consumeLog (its : List Iteration) : List Effect × Outcome :=
  let r := consumeLoop LogEntry.zero its
  (r.1 ++ (if r.2 = Outcome.blocked then [] else [Effect.decClose]), r.2)

/-- The messages passed to the sink's `Log`, in order. -/
def logged : List Effect → List Message
  | [] => []
  | Effect.log msg :: es => msg :: logged es
  | _ :: es => logged es

/-! ## The stream registry -/

/-- A log sink: a value of the interface `dockerLogger.Logger`. `id` identifies the sink
object and `isLogReader` says whether its dynamic type also implements
`dockerLogger.LogReader`, which is what the type assertion in `ReadLogs` tests. -/
structure Logger where
  id : Nat
  isLogReader : Bool
  deriving DecidableEq, Repr

/-- An input byte-stream (`io.ReadCloser`), identified by its descriptor. -/
structure Stream where
  fd : Nat
  deriving DecidableEq, Repr

/-- The stream metadata `dockerLogger.Info`, restricted to the fields the driver reads or
writes; the others are passed on to the sink's constructor untouched. -/
structure Info where
  ContainerID : String
  LogPath : String
  deriving DecidableEq, Repr

/-- The struct `logPair`. The registry stores pointers to it; each one is allocated with a
freshly constructed sink and a freshly opened stream and is never written afterwards, so a
pointer is modelled by the value it points to. -/
structure logPair where
  logger : Logger
  stream : Stream
  info : Info
  deriving DecidableEq, Repr

/-- The two maps of the struct `driver` (its mutex is modelled by the atomicity of the
locked sections below). -/
structure driver where
  logs : String → Option logPair
  idx : String → Option logPair

/-- Go's `m[k] = v`. -/
def mapSet {β : Type} (m : String → Option β) (k : String) (v : β) : String → Option β :=
  fun x => if x = k then some v else m x

/-- Go's `delete(m, k)`. -/
def mapDelete {β : Type} (m : String → Option β) (k : String) : String → Option β :=
  fun x => if x = k then none else m x

/-- The constructor `newDriver`: both maps empty. -/
def newDriver : driver := ⟨fun _ => none, fun _ => none⟩

/-- The collaborators of one `StartLogging` call, as functions of the arguments the call
passes them: `filepath.Join`, `filepath.Dir`, `os.MkdirAll`, `jsonfilelog.New` and
`fifo.OpenFifo`. -/
structure StartEnv where
  join : String → String → String
  dir : String → String
  mkdirAll : String → Option GoError
  newLogger : Info → Except GoError Logger
  openFifo : String → Except GoError Stream

/-- The first locked section of `StartLogging`: the error returned when `file` is a key of
`d.logs`, `none` when the call goes on. -/
def startCheck (d : driver) (file : String) : Option GoError :=
  match d.logs file with
  | some _ => some (GoError.alreadyExists file)
  | none => none

/-- The unlocked part of `StartLogging` between the two locked sections: the default log
path, the directory, the sink and the FIFO. It does not touch the registry. The result is
the `logPair` that the second locked section allocates, or the error returned. -/
def startSetup (env : StartEnv) (file : String) (logCtx : Info) : Except GoError logPair :=
  let logCtx :=
    if logCtx.LogPath = "" then
      { logCtx with LogPath := env.join "/var/log/docker" logCtx.ContainerID }
    else logCtx
  match env.mkdirAll (env.dir logCtx.LogPath) with
  | some err => Except.error (GoError.wrap err "error setting up logger dir")
  | none =>
    match env.newLogger logCtx with
    | Except.error err => Except.error (GoError.wrap err "error creating jsonfile logger")
    | Except.ok l =>
      match env.openFifo file with
      | Except.error err =>
        Except.error (GoError.wrapf err "error opening logger fifo: %q" file)
      | Except.ok f => Except.ok ⟨l, f, logCtx⟩

/-- The second locked section of `StartLogging`: `d.logs[file] = lf` and
`d.idx[logCtx.ContainerID] = lf`. -/
def startInsert (d : driver) (file : String) (lf : logPair) : driver :=
  let d := { d with logs := mapSet d.logs file lf }
  { d with idx := mapSet d.idx lf.info.ContainerID lf }

/-- The result of a `StartLogging` call: the registry afterwards, the error returned (`none`
for nil) and the `logPair` for which a worker `consumeLog` was started, if any. -/
structure StartResult where
  d : driver
  err : Option GoError
  worker : Option logPair

/-- The method `StartLogging`, run without interference from other calls. -/
def StartLogging (d : driver) (env : StartEnv) (file : String) (logCtx : Info) :
    StartResult :=
  match startCheck d file with
  | some err => ⟨d, some err, none⟩
  | none =>
    match startSetup env file logCtx with
    | Except.error err => ⟨d, some err, none⟩
    | Except.ok lf => ⟨startInsert d file lf, none, some lf⟩

/-- The result of a `StopLogging` call: the registry afterwards, the error returned and the
streams on which `Close` was called. -/
structure StopResult where
  d : driver
  err : Option GoError
  closed : List Stream

/-- The method `StopLogging`. -/
def StopLogging (d : driver) (file : String) : StopResult :=
  match d.logs file with
  | some lf => ⟨{ d with logs := mapDelete d.logs file }, none, [lf.stream]⟩
  | none => ⟨d, none, []⟩

/-- The read end of the pipe that `ReadLogs` returns, identified by the sink whose watch
subscription the background task feeds it from. -/
structure PipeReader where
  source : Logger
  deriving DecidableEq, Repr

/-- The synchronous part of the method `ReadLogs`: the registry afterwards and the two
results `(io.ReadCloser, error)`. -/
def ReadLogs (d : driver) (info : Info) : driver × Except GoError PipeReader :=
  match d.idx info.ContainerID with
  | none => (d, Except.error (GoError.doesNotExist info.ContainerID))
  | some lf =>
    if lf.logger.isLogReader then (d, Except.ok ⟨lf.logger⟩)
    else (d, Except.error GoError.noReadSupport)

/-- A call on the registry. -/
inductive Op where
  | start (env : StartEnv) (file : String) (logCtx : Info)
  | stop (file : String)

/-- The registry after a call. -/
def applyOp (d : driver) : Op → driver
  | Op.start env file logCtx => (StartLogging d env file logCtx).d
  | Op.stop file => (StopLogging d file).d

/-- The registry after a sequence of calls, one after the other. -/
def runOps (d : driver) (ops : List Op) : driver :=
  ops.foldl applyOp d

/-- The registry invariant: every `logPair` of the handle index is the one the identity
index returns for its own `ContainerID`. -/
def IndexedByIdentity (d : driver) : Prop :=
  ∀ h lf, d.logs h = some lf → d.idx lf.info.ContainerID = some lf

/-- No stream of the handle index has the producer identity `id`. -/
def IdentityFree (d : driver) (id : String) : Prop :=
  ∀ h lf, d.logs h = some lf → lf.info.ContainerID ≠ id

/-- A sequence of calls keeps to one active stream per producer identity: each
`StartLogging` call either fails or is made while no stream of the handle index has its
`ContainerID`. -/
def OnePerIdentity : driver → List Op → Prop
  | _, [] => True
  | d, Op.start env file logCtx :: ops =>
    ((StartLogging d env file logCtx).err ≠ none ∨ IdentityFree d logCtx.ContainerID) ∧
      OnePerIdentity (StartLogging d env file logCtx).d ops
  | d, Op.stop file :: ops => OnePerIdentity (StopLogging d file).d ops

/-! ## Two concurrent registrations -/

/-- Where a `StartLogging` call stands: before its first locked section, between the two
(before the unlocked I/O, or after it holding the new `logPair`), or returned. -/
inductive Pc where
  | atCheck
  | atSetup
  | atInsert (lf : logPair)
  | done (err : Option GoError)
  deriving DecidableEq, Repr

/-- A `StartLogging` call in progress. -/
structure Call where
  env : StartEnv
  file : String
  logCtx : Info
  pc : Pc

/-- One step of a call on the shared registry. The mutex makes each locked section one
step; the I/O in between does not touch the registry and is one step as well. -/
def Call.step (d : driver) (c : Call) : driver × Call :=
  match c.pc with
  | Pc.atCheck =>
    match startCheck d c.file with
    | some err => (d, { c with pc := Pc.done (some err) })
    | none => (d, { c with pc := Pc.atSetup })
  | Pc.atSetup =>
    match startSetup c.env c.file c.logCtx with
    | Except.error err => (d, { c with pc := Pc.done (some err) })
    | Except.ok lf => (d, { c with pc := Pc.atInsert lf })
  | Pc.atInsert lf => (startInsert d c.file lf, { c with pc := Pc.done none })
  | Pc.done _ => (d, c)

/-- Two concurrent `StartLogging` calls on one registry. -/
structure System where
  d : driver
  a : Call
  b : Call

/-- The scheduler lets the first call (`true`) or the second call (`false`) take a step. -/
def System.step (s : System) (first : Bool) : System :=
  if first then
    let r := s.a.step s.d
    { s with d := r.1, a := r.2 }
  else
    let r := s.b.step s.d
    { s with d := r.1, b := r.2 }

/-- The system after a schedule. -/
def System.run (s : System) (schedule : List Bool) : System :=
  schedule.foldl System.step s

/-- The two calls have returned. -/
def System.finished (s : System) : Bool :=
  (match s.a.pc with | Pc.done _ => true | _ => false) &&
  (match s.b.pc with | Pc.done _ => true | _ => false)

/-! ## The read-back task -/

/-- What the `select` of the read-back task receives: a message from `watcher.Msg` together
with the result of the `enc.WriteMsg` that follows, the closing of `watcher.Msg`, or an
error from `watcher.Err`. -/
inductive WatchEvent where
  | msg (m : Message) (writeErr : Option GoError)
  | msgClosed
  | err (e : GoError)
  deriving DecidableEq, Repr

/-- The effects of the read-back task on the pipe and on the watch subscription. -/
inductive PipeEffect where
  /-- The call `enc.WriteMsg(&buf)` and the error it returned. -/
  | writeMsg (frame : LogEntry) (err : Option GoError)
  /-- The call `w.Close()`. -/
  | close
  /-- The call `w.CloseWithError(err)`. -/
  | closeWithError (err : GoError)
  /-- The deferred call `watcher.ConsumerGone()`. -/
  | consumerGone
  /-- The deferred call `enc.Close()`. -/
  | encClose
  deriving DecidableEq, Repr

/-- A run of the read-back task: its effects, how it ended, and the watch events it has not
received. -/
structure ReadRun where
  effects : List PipeEffect
  outcome : Outcome
  unread : List WatchEvent
  deriving DecidableEq, Repr

/-- The `for` loop of the read-back task, started with the contents of `buf`. -/
def readLoop (buf : LogEntry) : List WatchEvent → ReadRun
  | [] => ⟨[], Outcome.blocked, []⟩
  | WatchEvent.msgClosed :: rest => ⟨[PipeEffect.close], Outcome.returned, rest⟩
  | WatchEvent.err e :: rest => ⟨[PipeEffect.closeWithError e], Outcome.returned, rest⟩
  | WatchEvent.msg m writeErr :: rest =>
    let buf := unmapMessage buf m
    match writeErr with
    | some e =>
      ⟨[PipeEffect.writeMsg buf (some e), PipeEffect.closeWithError e], Outcome.returned, rest⟩
    | none =>
      let r := readLoop LogEntry.zero rest
      { r with effects := PipeEffect.writeMsg buf none :: r.effects }

/-- The read-back task started by `ReadLogs`, over the events of its watch subscription: the
loop run from the zero `buf`, then the deferred calls in reverse order of their `defer`. -/
def readTask (events : List WatchEvent) : ReadRun :=
  let r := readLoop LogEntry.zero events
  { r with effects := r.effects ++
      (if r.outcome = Outcome.blocked then [] else [PipeEffect.consumerGone, PipeEffect.encClose]) }

/-! ## Sample inputs and the notions used in the statements -/

/-- Collaborators that all succeed: the sink for a container gets the length of its log
path as identity and supports reading, the FIFO gets the length of its file name as
descriptor. -/
def sampleEnv : StartEnv where
  join := fun a b => a ++ "/" ++ b
  dir := fun p => p
  mkdirAll := fun _ => none
  newLogger := fun info => Except.ok ⟨info.LogPath.length, true⟩
  openFifo := fun file => Except.ok ⟨file.length⟩

/-- Collaborators whose FIFO cannot be opened. -/
def brokenFifoEnv : StartEnv :=
  { sampleEnv with openFifo := fun _ => Except.error (GoError.other "no such file") }

/-- A registry with one stream: handle `h1` of container `c1`. -/
def sampleDriver : driver :=
  (StartLogging newDriver sampleEnv "h1" ⟨"c1", ""⟩).d

/-- The iteration in which `ReadMsg` reports the end of the stream. -/
def endOfStream : Iteration :=
  ⟨ReadMsgResult.failed GoError.EOF none, none, "", ⟨none, none⟩⟩

/-- An iteration that decodes the frame `f`, whose `Log` succeeds, with `WEBHOOK_URL` unset. -/
def frameIteration (f : LogEntry) : Iteration :=
  ⟨ReadMsgResult.ok f, none, "", ⟨none, none⟩⟩

/-- The frame an iteration decodes, if it decodes one. -/
def entryOf (it : Iteration) : Option LogEntry :=
  match it.read with
  | ReadMsgResult.ok f => some f
  | ReadMsgResult.failed _ _ => none

/-- The canonical message of a frame without partial metadata: its line, its source and the
instant `time.Unix(0, TimeNano)`. -/
def messageOf (f : LogEntry) : Message :=
  ⟨f.Line, f.Source, timeUnix 0 f.TimeNano, none⟩

/-- Two concurrent `StartLogging` calls for the handle `h1`, neither started, on the empty
registry, all collaborators succeeding. -/
def racingCalls : System :=
  ⟨newDriver, ⟨sampleEnv, "h1", ⟨"c1", "/logs/a"⟩, Pc.atCheck⟩,
    ⟨sampleEnv, "h1", ⟨"c2", "/logs/bb"⟩, Pc.atCheck⟩⟩

/-- A registry whose identity index holds a sink without read support for `c3`. -/
def writeOnlyDriver : driver :=
  ⟨fun _ => none, mapSet (fun _ => none) "c3" ⟨⟨7, false⟩, ⟨3⟩, ⟨"c3", "/var/log/docker/c3"⟩⟩⟩

/-- Two registrations with the same `ContainerID` under different handles, then nothing
else. -/
def sameIdentityOps : List Op :=
  [Op.start sampleEnv "h1" ⟨"c1", "/logs/a"⟩, Op.start sampleEnv "h20" ⟨"c1", "/logs/bb"⟩]

/-- A sequence that reuses a producer identity only after its stream was stopped, and in
which a registration of a registered handle fails. -/
def oneAtATimeOps : List Op :=
  [Op.start sampleEnv "h1" ⟨"c1", ""⟩, Op.start sampleEnv "h1" ⟨"c1", ""⟩, Op.stop "h1",
    Op.start sampleEnv "h20" ⟨"c1", ""⟩, Op.start sampleEnv "h300" ⟨"c2", ""⟩]

/-- The event of a message whose frame is written into the pipe without error. -/
def delivered (m : Message) : WatchEvent := WatchEvent.msg m none

/-- The effect of writing the frame of a message into the pipe without error. -/
def written (m : Message) : PipeEffect :=
  PipeEffect.writeMsg (unmapMessage LogEntry.zero m) none

/-! ## Lemmas on the registry -/

theorem startSetup_ContainerID {env : StartEnv} {file : String} {logCtx : Info} {lf : logPair}
    (h : startSetup env file logCtx = Except.ok lf) :
    lf.info.ContainerID = logCtx.ContainerID := by
  unfold startSetup at h
  simp only at h
  split at h
  · cases h
  · split at h
    · cases h
    · split at h
      · cases h
      · injection h with h
        subst h
        simp only
        split <;> rfl

/-! ## Theorems on the registry -/

/-- C2: `StartLogging` on a handle that is a key of the handle index returns the
"already exists" error; it returns an error exactly when the handle is registered or the
directory, the sink or the FIFO fails; and whenever it returns an error the handle index and
the identity index are what they were before the call and no worker is started. -/
theorem StartLogging_error_leaves_registry (d : driver) (env : StartEnv) (file : String)
    (logCtx : Info) :
    (d.logs file ≠ none →
      (StartLogging d env file logCtx).err = some (GoError.alreadyExists file)) ∧
    ((StartLogging d env file logCtx).err ≠ none ↔
      (d.logs file ≠ none ∨ ∃ e, startSetup env file logCtx = Except.error e)) ∧
    ((StartLogging d env file logCtx).err ≠ none →
      (StartLogging d env file logCtx).d.logs = d.logs ∧
      (StartLogging d env file logCtx).d.idx = d.idx ∧
      (StartLogging d env file logCtx).worker = none) := by
  unfold StartLogging startCheck
  cases hl : d.logs file with
  | some lf => simp
  | none =>
    cases hs : startSetup env file logCtx with
    | error e => simp
    | ok lf => simp

/-- Witness of C2: registering `h1` again on the registry that holds `h1`, and registering
`h2` when its FIFO cannot be opened. -/
theorem StartLogging_error_leaves_registry_witness :
    (sampleDriver.logs "h1" ≠ none ∧
      (StartLogging sampleDriver sampleEnv "h1" ⟨"c2", ""⟩).err
        = some (GoError.alreadyExists "h1") ∧
      (StartLogging sampleDriver sampleEnv "h1" ⟨"c2", ""⟩).d.logs = sampleDriver.logs ∧
      (StartLogging sampleDriver sampleEnv "h1" ⟨"c2", ""⟩).d.idx = sampleDriver.idx ∧
      (StartLogging sampleDriver sampleEnv "h1" ⟨"c2", ""⟩).worker = none) ∧
    ((StartLogging sampleDriver brokenFifoEnv "h2" ⟨"c2", ""⟩).err
        = some (GoError.wrapf (GoError.other "no such file")
            "error opening logger fifo: %q" "h2") ∧
      (StartLogging sampleDriver brokenFifoEnv "h2" ⟨"c2", ""⟩).d.logs = sampleDriver.logs ∧
      (StartLogging sampleDriver brokenFifoEnv "h2" ⟨"c2", ""⟩).d.idx = sampleDriver.idx ∧
      (StartLogging sampleDriver brokenFifoEnv "h2" ⟨"c2", ""⟩).worker = none) := by
  have hreg : sampleDriver.logs "h1" ≠ none := by decide
  have h := StartLogging_error_leaves_registry sampleDriver sampleEnv "h1" ⟨"c2", ""⟩
  have herr := h.1 hreg
  have hf : (StartLogging sampleDriver brokenFifoEnv "h2" ⟨"c2", ""⟩).err
      = some (GoError.wrapf (GoError.other "no such file")
          "error opening logger fifo: %q" "h2") := by decide
  exact ⟨⟨hreg, herr, h.2.2 (by rw [herr]; simp)⟩, hf,
    (StartLogging_error_leaves_registry sampleDriver brokenFifoEnv "h2" ⟨"c2", ""⟩).2.2
      (by rw [hf]; simp)⟩

/-- C3: `StopLogging` returns nil; afterwards the handle index has no entry for `file` and
the entry of every other handle is unchanged, and the identity index is unchanged. On a
handle that is not registered the whole registry is unchanged, and a second `StopLogging`
of the same handle leaves the registry as the first one left it. -/
theorem StopLogging_erases_one_handle (d : driver) (file : String) :
    (StopLogging d file).err = none ∧
    (StopLogging d file).d.logs file = none ∧
    (∀ k, k ≠ file → (StopLogging d file).d.logs k = d.logs k) ∧
    (StopLogging d file).d.idx = d.idx ∧
    (d.logs file = none → (StopLogging d file).d = d ∧ (StopLogging d file).closed = []) ∧
    (StopLogging (StopLogging d file).d file).d = (StopLogging d file).d := by
  unfold StopLogging
  cases hl : d.logs file with
  | some lf =>
    simp [mapDelete]
    intro k hk hk2
    exact absurd hk2 hk
  | none => simp [hl]

/-- Witness of C3: stopping the handle `h2`, which the registry does not hold. -/
theorem StopLogging_erases_one_handle_witness :
    sampleDriver.logs "h2" = none ∧
    (StopLogging sampleDriver "h2").d = sampleDriver ∧
    (StopLogging sampleDriver "h2").closed = [] := by
  have hreg : sampleDriver.logs "h2" = none := by decide
  exact ⟨hreg, (StopLogging_erases_one_handle sampleDriver "h2").2.2.2.2.1 hreg⟩

/-- C4: `ReadLogs` returns the "does not exist" error when the `ContainerID` is not a key of
the identity index, the "does not support reading" error when the entry found has a sink
that is not a `LogReader`, and otherwise a reader on that sink and no error; in all cases
the registry is unchanged. -/
theorem ReadLogs_fails_in_two_cases (d : driver) (info : Info) :
    (d.idx info.ContainerID = none →
      (ReadLogs d info).2 = Except.error (GoError.doesNotExist info.ContainerID)) ∧
    (∀ lf, d.idx info.ContainerID = some lf → lf.logger.isLogReader = false →
      (ReadLogs d info).2 = Except.error GoError.noReadSupport) ∧
    (∀ lf, d.idx info.ContainerID = some lf → lf.logger.isLogReader = true →
      (ReadLogs d info).2 = Except.ok ⟨lf.logger⟩) ∧
    (ReadLogs d info).1 = d := by
  unfold ReadLogs
  cases hl : d.idx info.ContainerID with
  | none => simp
  | some lf => cases hr : lf.logger.isLogReader <;> simp [hr]

/-- Witness of C4: the three cases on concrete registries. -/
theorem ReadLogs_fails_in_two_cases_witness :
    (sampleDriver.idx "c9" = none ∧
      (ReadLogs sampleDriver ⟨"c9", ""⟩).2 = Except.error (GoError.doesNotExist "c9")) ∧
    (writeOnlyDriver.idx "c3" = some ⟨⟨7, false⟩, ⟨3⟩, ⟨"c3", "/var/log/docker/c3"⟩⟩ ∧
      (ReadLogs writeOnlyDriver ⟨"c3", ""⟩).2 = Except.error GoError.noReadSupport) ∧
    (sampleDriver.idx "c1" = some ⟨⟨18, true⟩, ⟨2⟩, ⟨"c1", "/var/log/docker/c1"⟩⟩ ∧
      (ReadLogs sampleDriver ⟨"c1", ""⟩).2 = Except.ok ⟨⟨18, true⟩⟩) := by
  have h1 : sampleDriver.idx "c9" = none := by decide
  have h2 : writeOnlyDriver.idx "c3"
      = some ⟨⟨7, false⟩, ⟨3⟩, ⟨"c3", "/var/log/docker/c3"⟩⟩ := by decide
  have h3 : sampleDriver.idx "c1"
      = some ⟨⟨18, true⟩, ⟨2⟩, ⟨"c1", "/var/log/docker/c1"⟩⟩ := by decide
  exact ⟨⟨h1, (ReadLogs_fails_in_two_cases sampleDriver ⟨"c9", ""⟩).1 h1⟩,
    ⟨h2, (ReadLogs_fails_in_two_cases writeOnlyDriver ⟨"c3", ""⟩).2.1 _ h2 rfl⟩,
    ⟨h3, (ReadLogs_fails_in_two_cases sampleDriver ⟨"c1", ""⟩).2.2.1 _ h3 rfl⟩⟩

/-! ## The registry invariant -/

theorem IndexedByIdentity_StopLogging {d : driver} (file : String)
    (h : IndexedByIdentity d) : IndexedByIdentity (StopLogging d file).d := by
  intro k lf hk
  unfold StopLogging at hk ⊢
  cases hl : d.logs file with
  | none =>
    rw [hl] at hk
    simp only [hl]
    exact h k lf hk
  | some lf0 =>
    rw [hl] at hk
    simp only [hl, mapDelete] at hk ⊢
    by_cases hkf : k = file
    · rw [if_pos hkf] at hk
      cases hk
    · rw [if_neg hkf] at hk
      exact h k lf hk

theorem IndexedByIdentity_StartLogging {d : driver} (env : StartEnv) (file : String)
    (logCtx : Info) (h : IndexedByIdentity d)
    (hfree : (StartLogging d env file logCtx).err ≠ none ∨ IdentityFree d logCtx.ContainerID) :
    IndexedByIdentity (StartLogging d env file logCtx).d := by
  unfold StartLogging at hfree ⊢
  cases hc : startCheck d file with
  | some e => simpa [hc] using h
  | none =>
    cases hs : startSetup env file logCtx with
    | error e => simpa [hc, hs] using h
    | ok lf =>
      have hid := startSetup_ContainerID hs
      have hfree2 : IdentityFree d logCtx.ContainerID := by
        rcases hfree with hne | hf
        · simp [hc, hs] at hne
        · exact hf
      intro k lf2 hk
      simp only [startInsert, mapSet] at hk ⊢
      by_cases hkf : k = file
      · rw [if_pos hkf] at hk
        injection hk with hk
        subst hk
        rw [if_pos rfl]
      · rw [if_neg hkf] at hk
        have hne : lf2.info.ContainerID ≠ lf.info.ContainerID := by
          rw [hid]
          exact hfree2 k lf2 hk
        rw [if_neg hne]
        exact h k lf2 hk

theorem IndexedByIdentity_runOps (ops : List Op) :
    ∀ d : driver, IndexedByIdentity d → OnePerIdentity d ops →
      IndexedByIdentity (runOps d ops) := by
  induction ops with
  | nil => intro d h _; exact h
  | cons op ops ih =>
    intro d h hone
    cases op with
    | start env file logCtx =>
      exact ih _ (IndexedByIdentity_StartLogging env file logCtx h hone.1) hone.2
    | stop file =>
      exact ih _ (IndexedByIdentity_StopLogging file h) hone

/-- C5, as stated, fails: after `StartLogging("h1", c1)` and `StartLogging("h20", c1)` the
handle index holds the first `logPair` under `h1`, while the identity index returns the
second one for `c1`. -/
theorem IndexedByIdentity_fails_same_identity :
    ¬ IndexedByIdentity (runOps newDriver sameIdentityOps) := by
  intro h
  have h1 := h "h1" ⟨⟨7, true⟩, ⟨2⟩, ⟨"c1", "/logs/a"⟩⟩ (by decide)
  revert h1
  decide

/-- C5, amended: in every registry state reached from the empty registry by a sequence of
`StartLogging` and `StopLogging` calls in which each `StartLogging` call either fails or is
made while no stream of the handle index has its `ContainerID`, every `logPair` of the
handle index is the one the identity index returns for its own `ContainerID`. -/
theorem IndexedByIdentity_reachable (ops : List Op) (h : OnePerIdentity newDriver ops) :
    IndexedByIdentity (runOps newDriver ops) :=
  IndexedByIdentity_runOps ops newDriver (fun _ _ hk => by cases hk) h

theorem oneAtATimeOps_OnePerIdentity : OnePerIdentity newDriver oneAtATimeOps := by
  refine ⟨Or.inr ?_, Or.inl (by decide), Or.inr ?_, Or.inr ?_, trivial⟩
  · intro k lf hk
    cases hk
  · intro k lf hk
    simp [StopLogging, StartLogging, startCheck, startSetup, startInsert, mapSet, mapDelete,
      newDriver, sampleEnv] at hk
    exact absurd hk.2.1 hk.1
  · intro k lf hk
    simp [StopLogging, StartLogging, startCheck, startSetup, startInsert, mapSet, mapDelete,
      newDriver, sampleEnv] at hk
    split_ifs at hk
    injection hk with hk
    rw [← hk]
    decide

/-- Witness of C5 (amended): the sequence keeps to one stream per identity and the final
registry, which holds `h20` and `h300`, satisfies the invariant. -/
theorem IndexedByIdentity_reachable_witness :
    OnePerIdentity newDriver oneAtATimeOps ∧
    (runOps newDriver oneAtATimeOps).logs "h20" ≠ none ∧
    (runOps newDriver oneAtATimeOps).logs "h300" ≠ none ∧
    IndexedByIdentity (runOps newDriver oneAtATimeOps) :=
  ⟨oneAtATimeOps_OnePerIdentity, by decide, by decide,
    IndexedByIdentity_reachable oneAtATimeOps oneAtATimeOps_OnePerIdentity⟩

/-! ## The canonical message mapper -/

theorem wrapInt64_of_range (x : Int) (h1 : -9223372036854775808 ≤ x)
    (h2 : x < 9223372036854775808) : wrapInt64 x = x := by
  unfold wrapInt64
  omega

theorem wrapInt64_add_wrapInt64 (a b : Int) : wrapInt64 (wrapInt64 a + b) = wrapInt64 (a + b) := by
  unfold wrapInt64
  omega

/-- The instant `time.Unix(0, n)` read back with `UnixNano()` is `n`, for every `int64`
value `n`. -/
theorem timeUnix_UnixNano (n : Int) (h1 : -9223372036854775808 ≤ n)
    (h2 : n < 9223372036854775808) : (timeUnix 0 n).UnixNano = n := by
  have hq := Int.tdiv_add_tmod n 1000000000
  have hr1 := Int.tmod_lt_of_pos n (show (0 : Int) < 1000000000 by decide)
  have hr2 : -1000000000 < Int.tmod n 1000000000 := by
    cases n with
    | ofNat m =>
      have h : 0 ≤ (Int.ofNat m).tmod 1000000000 :=
        Int.tmod_nonneg 1000000000 (Int.ofNat_nonneg m)
      omega
    | negSucc m =>
      have h := Nat.mod_lt m.succ (show 0 < 1000000000 by decide)
      show -1000000000 < -Int.ofNat (m.succ % 1000000000)
      simp only [Int.ofNat_eq_coe]
      omega
  unfold timeUnix Time.UnixNano
  simp only [zero_add]
  generalize Int.tmod n 1000000000 = r at hq hr1 hr2
  generalize Int.tdiv n 1000000000 = q at hq ⊢
  split_ifs <;> simp only [wrapInt64] <;> omega

theorem mapEntry_without_metadata (f : LogEntry) (h : f.PartialLogMetadata = none) :
    mapEntry f = Except.ok ⟨f.Line, f.Source, timeUnix 0 f.TimeNano, none⟩ := by
  unfold mapEntry
  rw [h]
  rfl

theorem mapEntry_with_metadata (f : LogEntry) (pm : PartialLogEntryMetadata)
    (h : f.PartialLogMetadata = some pm) :
    mapEntry f = Except.error GoPanic.nilDereference := by
  unfold mapEntry
  rw [h]
  rfl

/-- C7, as stated, fails: the frame with line "h", source "stdout", the partial flag set and
no partial metadata is mapped to a message without metadata, and that message is mapped back
to a frame whose partial flag is not set. -/
theorem roundTrip_loses_partial_flag :
    mapEntry ⟨"stdout", 5, [104], true, none⟩
      = Except.ok ⟨[104], "stdout", ⟨0, 5⟩, none⟩ ∧
    unmapMessage LogEntry.zero ⟨[104], "stdout", ⟨0, 5⟩, none⟩
      = ⟨"stdout", 5, [104], false, none⟩ ∧
    (unmapMessage LogEntry.zero ⟨[104], "stdout", ⟨0, 5⟩, none⟩).Partial
      ≠ (LogEntry.mk "stdout" 5 [104] true none).Partial :=
  ⟨rfl, rfl, by decide⟩

/-- C7, amended: every wire frame without partial metadata (its `TimeNano` an `int64`) is
mapped by the ingestion worker to a canonical message whose timestamp is the instant
`time.Unix(0, TimeNano)`, and the read-back mapping of that message into a fresh frame is
the frame itself with the partial flag cleared: the same line, source and nanosecond
timestamp, no partial metadata, and the partial flag not set whatever it was in the frame.
So the round trip gives back the frame exactly when its partial flag is not set, and the
timestamp does not differ. -/
theorem roundTrip_without_metadata (f : LogEntry) (h : f.PartialLogMetadata = none)
    (h1 : -9223372036854775808 ≤ f.TimeNano) (h2 : f.TimeNano < 9223372036854775808) :
    ∃ m, mapEntry f = Except.ok m ∧
      m.Timestamp = timeUnix 0 f.TimeNano ∧
      unmapMessage LogEntry.zero m = { f with Partial := false } ∧
      (unmapMessage LogEntry.zero m).Line = f.Line ∧
      (unmapMessage LogEntry.zero m).Source = f.Source ∧
      (unmapMessage LogEntry.zero m).TimeNano = f.TimeNano ∧
      (unmapMessage LogEntry.zero m).Partial = false ∧
      (unmapMessage LogEntry.zero m).PartialLogMetadata = f.PartialLogMetadata ∧
      (f.Partial = false → unmapMessage LogEntry.zero m = f) := by
  have ht := timeUnix_UnixNano f.TimeNano h1 h2
  have hframe : unmapMessage LogEntry.zero ⟨f.Line, f.Source, timeUnix 0 f.TimeNano, none⟩
      = { f with Partial := false } := by
    cases f with
    | mk src t line p md =>
      simp only at h ht
      simp only [unmapMessage, LogEntry.zero, ht, h, Option.isSome_none]
  refine ⟨_, mapEntry_without_metadata f h, rfl, hframe, rfl, rfl, ht, rfl, h.symm, ?_⟩
  intro hp
  rw [hframe, ← hp]

/-- Witness of C7 (amended): a frame of standard error, one nanosecond before the epoch,
with the partial flag set. -/
theorem roundTrip_without_metadata_witness :
    (LogEntry.mk "stderr" (-1) [111, 107] true none).PartialLogMetadata = none ∧
    ∃ m, mapEntry ⟨"stderr", -1, [111, 107], true, none⟩ = Except.ok m ∧
      m.Timestamp = ⟨-1, 999999999⟩ ∧
      unmapMessage LogEntry.zero m = ⟨"stderr", -1, [111, 107], false, none⟩ := by
  obtain ⟨m, hm, hts, hframe, _⟩ :=
    roundTrip_without_metadata ⟨"stderr", -1, [111, 107], true, none⟩ rfl
      (by decide) (by decide)
  exact ⟨rfl, m, hm, hts.trans (by decide), hframe⟩

/-! ## The read-back task -/

theorem readLoop_delivered_cons (buf : LogEntry) (m : Message) (rest : List WatchEvent) :
    readLoop buf (delivered m :: rest) =
      { readLoop LogEntry.zero rest with
        effects := PipeEffect.writeMsg (unmapMessage buf m) none ::
          (readLoop LogEntry.zero rest).effects } :=
  rfl

theorem readLoop_delivered (ms : List Message) (tail : List WatchEvent) :
    readLoop LogEntry.zero (ms.map delivered ++ tail) =
      { readLoop LogEntry.zero tail with
        effects := ms.map written ++ (readLoop LogEntry.zero tail).effects } := by
  induction ms with
  | nil => rfl
  | cons m ms ih =>
    rw [List.map_cons, List.cons_append, readLoop_delivered_cons, ih]
    rfl

/-- C9: over watch events that start with any number of messages whose frames are written
without error, the read-back task writes the frame of each of these messages, in order, and
then (a) when the message channel closes, calls `w.Close()`, (b) when the watcher reports an
error, calls `w.CloseWithError` with that error, (c) when the write of a further message
fails, calls `w.CloseWithError` with the write error; in each case it then calls
`ConsumerGone` once and returns, and the events after the ending one are left unread. -/
theorem readTask_streams_until_first_end (ms : List Message) (rest : List WatchEvent) :
    readTask (ms.map delivered ++ WatchEvent.msgClosed :: rest) =
      ⟨ms.map written ++ [PipeEffect.close, PipeEffect.consumerGone, PipeEffect.encClose],
        Outcome.returned, rest⟩ ∧
    (∀ e, readTask (ms.map delivered ++ WatchEvent.err e :: rest) =
      ⟨ms.map written ++
          [PipeEffect.closeWithError e, PipeEffect.consumerGone, PipeEffect.encClose],
        Outcome.returned, rest⟩) ∧
    (∀ m e, readTask (ms.map delivered ++ WatchEvent.msg m (some e) :: rest) =
      ⟨ms.map written ++
          [PipeEffect.writeMsg (unmapMessage LogEntry.zero m) (some e),
            PipeEffect.closeWithError e, PipeEffect.consumerGone, PipeEffect.encClose],
        Outcome.returned, rest⟩) := by
  refine ⟨?_, fun e => ?_, fun m e => ?_⟩ <;>
    simp [readTask, readLoop_delivered, readLoop]

/-! ## The ingestion worker -/

/-- Over frames without partial metadata, each decoded without error and each either with
`WEBHOOK_URL` unset or with a POST that returns a response, followed by the end of the
stream, the worker passes to `Log` the message of each frame, in order, whatever `Log`
returns, and returns. -/
theorem consumeLoop_sinks_each_frame (its : List Iteration) (last : Iteration)
    (hlast : ∃ b, last.read = ReadMsgResult.failed GoError.EOF b)
    (h : ∀ it ∈ its, ∃ f, it.read = ReadMsgResult.ok f ∧ f.PartialLogMetadata = none ∧
      (it.webhookEnv = "" ∨ it.post.resp ≠ none)) :
    ∀ buf, logged (consumeLoop buf (its ++ [last])).1 = (its.filterMap entryOf).map messageOf ∧
      (consumeLoop buf (its ++ [last])).2 = Outcome.returned := by
  induction its with
  | nil =>
    intro buf
    obtain ⟨b, hb⟩ := hlast
    cases b <;> simp [consumeLoop, hb, readMsg, logged]
  | cons it its ih =>
    intro buf
    obtain ⟨f, hf, hmeta, hweb⟩ := h it (List.mem_cons_self _ _)
    have ih2 := ih (fun x hx => h x (List.mem_cons_of_mem _ hx))
    have hm := mapEntry_without_metadata f hmeta
    have hent : entryOf it = some f := by simp [entryOf, hf]
    simp only [List.cons_append, consumeLoop, hf, readMsg, hm, andThen]
    cases hl : it.logErr with
    | some e =>
      simp [logged, hent, messageOf, ih2 f]
    | none =>
      rcases hweb with hw | hw
      · simp [logged, hent, messageOf, hw, ih2 LogEntry.zero]
      · obtain ⟨r, hr⟩ := Option.ne_none_iff_exists'.mp hw
        by_cases hw2 : it.webhookEnv = ""
        · simp [logged, hent, messageOf, hw2, ih2 LogEntry.zero]
        · cases hpe : it.post.err <;>
            simp [logged, hent, messageOf, hw2, hr, hpe, readThrough, ih2 LogEntry.zero]

/-- C1: on a stream that holds one well-formed frame carrying partial metadata (id "id1",
ordinal 1, not last) followed by the end of the stream, the worker makes no `Log` call at
all: the assignment `msg.PLogMetaData.ID = ...` goes through the nil pointer of the fresh
message and the worker panics; only the deferred `dec.Close()` runs. -/
theorem consumeLog_panics_on_partial_metadata :
    consumeLog [frameIteration ⟨"stdout", 5, [104], true, some ⟨false, "id1", 1⟩⟩, endOfStream]
      = ([Effect.decClose], Outcome.panicked) ∧
    logged (consumeLog
      [frameIteration ⟨"stdout", 5, [104], true, some ⟨false, "id1", 1⟩⟩, endOfStream]).1
      = [] := by
  decide

/-- C6: on a stream whose first decode fails with an error other than the end of the stream
(the buffer left untouched) and whose second decode reports the end of the stream, the
worker recreates the decoder and then, without a successful decode, calls `Log` once with
the message of the empty buffer, before it closes the stream and returns. -/
theorem consumeLog_logs_after_failed_decode :
    consumeLog [⟨ReadMsgResult.failed (GoError.other "short buffer") none, none, "",
        ⟨none, none⟩⟩, endOfStream]
      = ([Effect.newReader, Effect.log ⟨[], "", ⟨0, 0⟩, none⟩, Effect.closeStream,
          Effect.decClose], Outcome.returned) ∧
    logged (consumeLog [⟨ReadMsgResult.failed (GoError.other "short buffer") none, none, "",
        ⟨none, none⟩⟩, endOfStream]).1
      = [⟨[], "", ⟨0, 0⟩, none⟩] := by
  decide

/-- C8: with `WEBHOOK_URL` set, on a stream of two well-formed frames without metadata
followed by the end of the stream, when `Log` succeeds on the first frame and `http.Post`
returns an error and no response, the worker reports the failure and then panics at
`resp.Body.Close()`: the second frame is never decoded nor passed to `Log`, and the stream
is not closed by the end-of-stream path. -/
theorem consumeLog_panics_on_failed_post :
    consumeLog [⟨ReadMsgResult.ok ⟨"stdout", 5, [104], false, none⟩, none, "http://hook",
        ⟨none, some (GoError.other "connection refused")⟩⟩,
      ⟨ReadMsgResult.ok ⟨"stdout", 6, [105], false, none⟩, none, "http://hook",
        ⟨some 1, none⟩⟩, endOfStream]
      = ([Effect.log ⟨[104], "stdout", ⟨0, 5⟩, none⟩, Effect.post ⟨[104], "stdout", ⟨0, 5⟩, none⟩,
          Effect.reportPostError (GoError.other "connection refused"), Effect.decClose],
        Outcome.panicked) := by
  decide

/-! ## Two concurrent registrations -/

/-- A call that runs its three steps without any other call in between does what the
sequential `StartLogging` does. -/
theorem Call_alone_is_StartLogging (d : driver) (env : StartEnv) (file : String)
    (logCtx : Info) :
    let c : Call := ⟨env, file, logCtx, Pc.atCheck⟩
    let r1 := c.step d
    let r2 := r1.2.step r1.1
    let r3 := r2.2.step r2.1
    r3.1 = (StartLogging d env file logCtx).d ∧
    r3.2.pc = Pc.done (StartLogging d env file logCtx).err := by
  simp only [Call.step, StartLogging]
  cases hc : startCheck d file with
  | some e => simp
  | none =>
    cases hs : startSetup env file logCtx with
    | error e => simp [hs]
    | ok lf => simp [hs]

/-- C10: two concurrent `StartLogging` calls for the unregistered handle `h1`, all
collaborators succeeding, scheduled so that both run their first locked section before
either runs its second: both calls return nil, the handle index ends up holding the
`logPair` of the call that inserted last, and the identity index holds a `logPair` of each
call. -/
theorem concurrent_StartLogging_both_succeed :
    (racingCalls.run [true, false, true, false, true, false]).finished = true ∧
    (racingCalls.run [true, false, true, false, true, false]).a.pc = Pc.done none ∧
    (racingCalls.run [true, false, true, false, true, false]).b.pc = Pc.done none ∧
    (racingCalls.run [true, false, true, false, true, false]).d.logs "h1"
      = some ⟨⟨8, true⟩, ⟨2⟩, ⟨"c2", "/logs/bb"⟩⟩ ∧
    (racingCalls.run [true, false, true, false, true, false]).d.idx "c1"
      = some ⟨⟨7, true⟩, ⟨2⟩, ⟨"c1", "/logs/a"⟩⟩ ∧
    (racingCalls.run [true, false, true, false, true, false]).d.idx "c2"
      = some ⟨⟨8, true⟩, ⟨2⟩, ⟨"c2", "/logs/bb"⟩⟩ := by
  decide

end DockerLoggingDriver
